import Mathlib

set_option linter.unnecessarySeqFocus false

/-!
Shallow embedding of `cmd/push/main.go` from the helm-push-artifactory-plugin
repository, together with proofs about its behaviour.

Conventions of the embedding:
  * Go functions returning `error` are modelled as returning `Option String`,
    where `none` is the `nil` error (success) and `some msg` a non-nil error
    carrying its message.
  * The HTTP status code is a Go `int`, modelled as `Int`; `fmt` verb `%d`
    is modelled by `toString`.
  * `encoding/json.Unmarshal` into the `errorResponse` struct is modelled by
    an executable decoder following Go's scanner and decode rules for that
    struct: whitespace, literals, the full number grammar (leading-zero rule
    included), string escapes with `\uXXXX` surrogate handling, rejection of
    raw control characters, the nesting-depth limit, case-folded field-name
    matching, in-order decoding of duplicate keys with slice-element reuse,
    `null` as a no-op, and 64-bit bounds for the `status` integer; a recorded
    syntax or type error yields `none`, as `getArtifactoryError` only
    distinguishes `err != nil` or an empty list from a decoded record.
  * Environment access (`os.LookupEnv`) is a function `String → Option String`.
  * The external collaborators of `push` (repository store, chart loading,
    packaging, HTTP client) are abstracted by an oracle of their results, and
    `push` additionally returns the list of effect events it performed, in
    order, so that claims about which calls happen can be stated.
-/

/-! ### The error decoder (`getArtifactoryError` and its JSON model) -/

/-- Mirrors the Go struct `artifactoryError { Status int; Message string }`. -/
structure artifactoryError where
  status : Int
  message : String
deriving Repr, DecidableEq

/-- JSON values, as needed to model decoding into `errorResponse`. A number
keeps its literal text, as Go's decoder does before `strconv.ParseInt`. -/
inductive Json where
  | null
  | boolean (b : Bool)
  | num (lit : String)
  | str (s : String)
  | arr (elems : List Json)
  | obj (fields : List (String × Json))
deriving Repr

def isJsonWs (c : Char) : Bool :=
  c = ' ' || c = '\t' || c = '\n' || c = '\r'

def skipWs : List Char → List Char
  | [] => []
  | c :: cs => if isJsonWs c then skipWs cs else c :: cs

/-- Numeric value of one hexadecimal digit, as in the scanner's `getu4`. -/
def hexDigitVal (c : Char) : Option Nat :=
  if '0' ≤ c ∧ c ≤ '9' then some (c.toNat - '0'.toNat)
  else if 'a' ≤ c ∧ c ≤ 'f' then some (c.toNat - 'a'.toNat + 10)
  else if 'A' ≤ c ∧ c ≤ 'F' then some (c.toNat - 'A'.toNat + 10)
  else none

/-- Read exactly four hexadecimal digits (the `XXXX` of a `\uXXXX` escape). -/
def parseU4 : List Char → Option (Nat × List Char)
  | a :: b :: c :: d :: rest =>
    match hexDigitVal a, hexDigitVal b, hexDigitVal c, hexDigitVal d with
    | some x1, some x2, some x3, some x4 =>
      some (((x1 * 16 + x2) * 16 + x3) * 16 + x4, rest)
    | _, _, _, _ => none
  | _ => none

def isHighSurrogate (r : Nat) : Bool := 0xD800 ≤ r && r ≤ 0xDBFF

def isLowSurrogate (r : Nat) : Bool := 0xDC00 ≤ r && r ≤ 0xDFFF

/-- U+FFFD, written for unpaired surrogate halves as `utf16.DecodeRune` does. -/
def replacementChar : Char := Char.ofNat 0xFFFD

/-- Parse the body of a JSON string after the opening quote, returning the
decoded string and the input following the closing quote. As in Go's scanner
and `unquote`: a raw control character below U+0020 is a syntax error; the
escapes are `\" \\ \/ \b \f \n \r \t` and `\uXXXX`, where a valid high/low
surrogate pair combines into one code point and an unpaired half becomes
U+FFFD, consuming only its own escape. -/
def parseStringBody (fuel : Nat) (cs : List Char) (acc : List Char) :
    Option (String × List Char) :=
  match fuel, cs with
  | 0, _ => none
  | _, [] => none
  | fuel + 1, c :: cs =>
    if c = '"' then some (String.mk acc.reverse, cs)
    else if c = '\\' then
      match cs with
      | [] => none
      | e :: cs2 =>
        if e = '"' then parseStringBody fuel cs2 ('"' :: acc)
        else if e = '\\' then parseStringBody fuel cs2 ('\\' :: acc)
        else if e = '/' then parseStringBody fuel cs2 ('/' :: acc)
        else if e = 'b' then parseStringBody fuel cs2 ('\x08' :: acc)
        else if e = 'f' then parseStringBody fuel cs2 ('\x0C' :: acc)
        else if e = 'n' then parseStringBody fuel cs2 ('\n' :: acc)
        else if e = 'r' then parseStringBody fuel cs2 ('\r' :: acc)
        else if e = 't' then parseStringBody fuel cs2 ('\t' :: acc)
        else if e = 'u' then
          match parseU4 cs2 with
          | none => none
          | some (r, cs3) =>
            if isHighSurrogate r then
              match cs3 with
              | '\\' :: 'u' :: cs4 =>
                match parseU4 cs4 with
                | some (r2, cs5) =>
                  if isLowSurrogate r2 then
                    parseStringBody fuel cs5
                      (Char.ofNat (0x10000 + (r - 0xD800) * 0x400 + (r2 - 0xDC00)) :: acc)
                  else parseStringBody fuel cs3 (replacementChar :: acc)
                | none => parseStringBody fuel cs3 (replacementChar :: acc)
              | _ => parseStringBody fuel cs3 (replacementChar :: acc)
            else if isLowSurrogate r then
              parseStringBody fuel cs3 (replacementChar :: acc)
            else parseStringBody fuel cs3 (Char.ofNat r :: acc)
        else none
    else if c.toNat < 0x20 then none
    else parseStringBody fuel cs (c :: acc)

/-- Leading run of decimal digits. -/
def takeDigits : List Char → List Char × List Char
  | [] => ([], [])
  | c :: cs =>
    if c.isDigit then
      match takeDigits cs with
      | (ds, rest) => (c :: ds, rest)
    else ([], c :: cs)

/-- Optional exponent part of a number literal. -/
def numExp (acc : List Char) (cs : List Char) : Option (String × List Char) :=
  match cs with
  | [] => some (String.mk acc, [])
  | c :: rest =>
    if c = 'e' ∨ c = 'E' then
      let (sgn, rest2) :=
        match rest with
        | '+' :: r2 => (['+'], r2)
        | '-' :: r2 => (['-'], r2)
        | _ => (([] : List Char), rest)
      match takeDigits rest2 with
      | ([], _) => none
      | (ds, rest3) => some (String.mk (acc ++ c :: (sgn ++ ds)), rest3)
    else some (String.mk acc, c :: rest)

/-- Optional fraction, then optional exponent, of a number literal. -/
def numFracExp (acc : List Char) (cs : List Char) : Option (String × List Char) :=
  match cs with
  | '.' :: rest =>
    match takeDigits rest with
    | ([], _) => none
    | (ds, rest2) => numExp (acc ++ '.' :: ds) rest2
  | _ => numExp acc cs

/-- Parse a JSON number literal, Go's grammar: an optional minus, an integer
part with no leading zero, an optional fraction and an optional exponent.
The literal text is returned; interpretation is deferred to the decoder. -/
def parseNumberLit (cs : List Char) : Option (String × List Char) :=
  let (sign, cs1) :=
    match cs with
    | '-' :: rest => (['-'], rest)
    | _ => (([] : List Char), cs)
  match cs1 with
  | [] => none
  | c :: rest =>
    if c = '0' then numFracExp (sign ++ ['0']) rest
    else if c.isDigit then
      match takeDigits (c :: rest) with
      | (ds, rest2) => numFracExp (sign ++ ds) rest2
    else none

/-- Go's scanner refuses to open an array or object more than 10000 levels
deep (`maxNestingDepth`). -/
def maxNestingDepth : Nat := 10000

mutual

/-- Parse one JSON value; returns the value and the remaining input. `depth`
is the number of enclosing containers. -/
def parseValue : Nat → Nat → List Char → Option (Json × List Char)
  | 0, _, _ => none
  | fuel + 1, depth, cs =>
    match skipWs cs with
    | [] => none
    | c :: cs1 =>
      if c = 'n' then
        match cs1 with
        | 'u' :: 'l' :: 'l' :: rest => some (Json.null, rest)
        | _ => none
      else if c = 't' then
        match cs1 with
        | 'r' :: 'u' :: 'e' :: rest => some (Json.boolean true, rest)
        | _ => none
      else if c = 'f' then
        match cs1 with
        | 'a' :: 'l' :: 's' :: 'e' :: rest => some (Json.boolean false, rest)
        | _ => none
      else if c = '"' then
        match parseStringBody (cs1.length + 1) cs1 [] with
        | some (s, rest) => some (Json.str s, rest)
        | none => none
      else if c = '[' then
        if maxNestingDepth ≤ depth then none
        else
          match skipWs cs1 with
          | ']' :: rest => some (Json.arr [], rest)
          | cs2 => parseElements fuel (depth + 1) cs2 []
      else if c = '{' then
        if maxNestingDepth ≤ depth then none
        else
          match skipWs cs1 with
          | '}' :: rest => some (Json.obj [], rest)
          | cs2 => parseMembers fuel (depth + 1) cs2 []
      else if c = '-' ∨ c.isDigit then
        match parseNumberLit (c :: cs1) with
        | some (lit, rest) => some (Json.num lit, rest)
        | none => none
      else none

/-- Parse the elements of a non-empty JSON array, accumulator-style. -/
def parseElements : Nat → Nat → List Char → List Json → Option (Json × List Char)
  | 0, _, _, _ => none
  | fuel + 1, depth, cs, acc =>
    match parseValue fuel depth cs with
    | none => none
    | some (v, rest) =>
      match skipWs rest with
      | ',' :: rest2 => parseElements fuel depth rest2 (v :: acc)
      | ']' :: rest2 => some (Json.arr (v :: acc).reverse, rest2)
      | _ => none

/-- Parse the members of a non-empty JSON object, accumulator-style. -/
def parseMembers : Nat → Nat → List Char → List (String × Json) →
    Option (Json × List Char)
  | 0, _, _, _ => none
  | fuel + 1, depth, cs, acc =>
    match skipWs cs with
    | '"' :: cs1 =>
      match parseStringBody (cs1.length + 1) cs1 [] with
      | none => none
      | some (k, rest) =>
        match skipWs rest with
        | ':' :: rest2 =>
          match parseValue fuel depth rest2 with
          | none => none
          | some (v, rest3) =>
            match skipWs rest3 with
            | ',' :: rest4 => parseMembers fuel depth rest4 ((k, v) :: acc)
            | '}' :: rest4 => some (Json.obj ((k, v) :: acc).reverse, rest4)
            | _ => none
        | _ => none
    | _ => none

end

/-- Case folding used to match object keys to struct field names, as
`encoding/json` does via `bytes.EqualFold`. ASCII letters fold to lower case;
U+017F (long s) is the only further code point whose Unicode simple folding
reaches a letter of the keys `errors`, `status`, `message` (U+212A, which
folds to `k`, is mapped too for completeness). -/
def goFoldChar (c : Char) : Char :=
  if 'A' ≤ c ∧ c ≤ 'Z' then Char.ofNat (c.toNat + 32)
  else if c.toNat = 0x17F then 's'
  else if c.toNat = 0x212A then 'k'
  else c

def keyMatches (k target : String) : Bool :=
  k.data.map goFoldChar == target.data.map goFoldChar

def digitsToNat (ds : List Char) : Nat :=
  ds.foldl (fun a c => a * 10 + (c.toNat - '0'.toNat)) 0

/-- Model of `strconv.ParseInt(lit, 10, 64)` on a stored number literal: it
succeeds only on pure integer literals (a fraction or exponent is an error,
as is overflowing the signed 64-bit range). -/
def goParseInt64 (lit : String) : Option Int :=
  match lit.data with
  | '-' :: ds =>
    if ds ≠ [] ∧ ds.all (fun c => c.isDigit) then
      if digitsToNat ds ≤ 2 ^ 63 then some (-(digitsToNat ds : Int)) else none
    else none
  | ds =>
    if ds ≠ [] ∧ ds.all (fun c => c.isDigit) then
      if digitsToNat ds ≤ 2 ^ 63 - 1 then some ((digitsToNat ds : Int)) else none
    else none

/-- Decode a JSON value into the `Status int` field of an existing record:
`null` is a no-op, an integer literal in range is stored, anything else is an
`UnmarshalTypeError` (the `Bool` flags it; decoding continues). -/
def decodeStatusInto (cur : artifactoryError) : Json → artifactoryError × Bool
  | Json.null => (cur, false)
  | Json.num lit =>
    match goParseInt64 lit with
    | some n => ({ cur with status := n }, false)
    | none => (cur, true)
  | _ => (cur, true)

/-- Decode a JSON value into the `Message string` field of an existing
record; same conventions as `decodeStatusInto`. -/
def decodeMessageInto (cur : artifactoryError) : Json → artifactoryError × Bool
  | Json.null => (cur, false)
  | Json.str s => ({ cur with message := s }, false)
  | _ => (cur, true)

/-- Walk an object's keys in order, decoding every key that case-folds to
`status` or `message` into the record (later keys overwrite earlier ones,
and every type error is recorded), ignoring all other keys. -/
def decodeRecordFields (cur : artifactoryError) (failed : Bool) :
    List (String × Json) → artifactoryError × Bool
  | [] => (cur, failed)
  | (k, v) :: rest =>
    if keyMatches k "status" then
      let (cur2, f) := decodeStatusInto cur v
      decodeRecordFields cur2 (failed || f) rest
    else if keyMatches k "message" then
      let (cur2, f) := decodeMessageInto cur v
      decodeRecordFields cur2 (failed || f) rest
    else decodeRecordFields cur failed rest

/-- Decode a JSON value into an existing `artifactoryError` value: `null` is
a no-op, an object decodes field by field, anything else is a type error. -/
def decodeRecordInto (cur : artifactoryError) : Json → artifactoryError × Bool
  | Json.null => (cur, false)
  | Json.obj fields => decodeRecordFields cur false fields
  | _ => (cur, true)

/-- Decode a JSON array into an existing slice the way `encoding/json` does:
element `i` is decoded into the existing element `i` when there is one (so
fields absent from the JSON keep their previous values) and into a zero
record otherwise; the result has exactly the array's length. -/
def decodeArrayInto : List artifactoryError → List Json →
    List artifactoryError × Bool
  | _, [] => ([], false)
  | cur, x :: xs =>
    let head := match cur with
      | c :: _ => c
      | [] => { status := 0, message := "" }
    let tail := match cur with
      | _ :: cs => cs
      | [] => []
    let (e, f1) := decodeRecordInto head x
    let (rest, f2) := decodeArrayInto tail xs
    (e :: rest, f1 || f2)

/-- Decode a JSON value into the `Errors []artifactoryError` field: `null`
is a no-op, an array decodes into the existing slice, anything else is a
type error. -/
def decodeErrorsFieldInto (cur : List artifactoryError) :
    Json → List artifactoryError × Bool
  | Json.null => (cur, false)
  | Json.arr xs => decodeArrayInto cur xs
  | _ => (cur, true)

/-- Walk the top-level object's keys in order, decoding every key that
case-folds to `errors` into the slice and recording every type error. -/
def decodeTopFields (cur : List artifactoryError) (failed : Bool) :
    List (String × Json) → List artifactoryError × Bool
  | [] => (cur, failed)
  | (k, v) :: rest =>
    if keyMatches k "errors" then
      let (cur2, f) := decodeErrorsFieldInto cur v
      decodeTopFields cur2 (failed || f) rest
    else decodeTopFields cur failed rest

/-- Decode a parsed top-level JSON value into the Go struct
`errorResponse { Errors []artifactoryError }`: `null` is a no-op (leaving a
nil slice), an object decodes as above and yields the slice when no decode
error was recorded, and any other value is an `UnmarshalTypeError`. -/
def decodeErrorResponse : Json → Option (List artifactoryError)
  | Json.null => some []
  | Json.obj fields =>
    match decodeTopFields [] false fields with
    | (es, false) => some es
    | (_, true) => none
  | _ => none

/-- Model of `json.Unmarshal(b, &errorResponse{})`: `none` exactly when the
modelled decoder records an error (a syntax error from the scanner rules
above, or a type error from the decode rules above), otherwise the decoded
`Errors` list. The input is a Lean string and therefore valid Unicode; byte
sequences that are not valid UTF-8 have no counterpart in the embedding. -/
def unmarshalErrorResponse (b : String) : Option (List artifactoryError) :=
  match parseValue (2 * b.length + 4) 0 b.data with
  | none => none
  | some (j, rest) => if skipWs rest = [] then decodeErrorResponse j else none

/-- Mirrors `getArtifactoryError(b []byte, code int) error` in
`cmd/push/main.go`: on decode failure or an empty `errors` list it returns the
generic message, otherwise the first record's message prefixed by the code. -/
def getArtifactoryError (b : String) (code : Int) : Option String :=
  match unmarshalErrorResponse b with
  | some (e :: _) => some (toString code ++ ": " ++ e.message)
  | _ => some (toString code ++ ": could not properly parse response JSON: " ++ b)

/-! ### Response handlers -/

/-- The parts of `http.Response` the handlers look at, with the body already
read (`ioutil.ReadAll` is modelled as returning these bytes). -/
structure httpResponse where
  statusCode : Int
  body : String
deriving Repr, DecidableEq

/-- Mirrors `handleReindexResponse` in `cmd/push/main.go`: status 200 is
success, anything else is decoded as an Artifactory error. -/
def handleReindexResponse (resp : httpResponse) : Option String :=
  if resp.statusCode ≠ 200 then getArtifactoryError resp.body resp.statusCode
  else none

/-- Mirrors `handlePushResponse` in `cmd/push/main.go`: status 201 is
success, anything else is decoded as an Artifactory error. -/
def handlePushResponse (resp : httpResponse) : Option String :=
  if resp.statusCode ≠ 201 then getArtifactoryError resp.body resp.statusCode
  else none

/-! ### The command's field set and layered resolution -/

/-- Mirrors the Go struct `pushCmd` in `cmd/push/main.go`. -/
structure PushCmd where
  chartName : String
  chartVersion : String
  appVersion : String
  repository : String
  path : String
  username : String
  password : String
  accessToken : String
  apiKey : String
  caFile : String
  certFile : String
  keyFile : String
  insecureSkipVerify : Bool
  skipReindex : Bool
  overrides : List String
deriving Repr, DecidableEq

/-- Mirrors the stored repository entry `repo.Repo` consumed by `push`
(fields read at lines 167-184 of `cmd/push/main.go`). -/
structure Repo where
  url : String
  username : String
  password : String
  caFile : String
  certFile : String
  keyFile : String
deriving Repr, DecidableEq

/-- The process environment, as seen through `os.LookupEnv`. -/
def Env : Type := String → Option String

/-- Model of `v, _ = strconv.ParseBool(s)`: `true` exactly on Go's accepted
true spellings; the false spellings and every parse error yield `false`. -/
def goParseBoolOrFalse (s : String) : Bool :=
  s = "1" || s = "t" || s = "T" || s = "TRUE" || s = "true" || s = "True"

def envStepPath (env : Env) (p : PushCmd) : PushCmd :=
  match env "HELM_REPO_PATH" with
  | some v => if p.path = "" then { p with path := v } else p
  | none => p

def envStepUsername (env : Env) (p : PushCmd) : PushCmd :=
  match env "HELM_REPO_USERNAME" with
  | some v => if p.username = "" then { p with username := v } else p
  | none => p

def envStepPassword (env : Env) (p : PushCmd) : PushCmd :=
  match env "HELM_REPO_PASSWORD" with
  | some v => if p.password = "" then { p with password := v } else p
  | none => p

def envStepAccessToken (env : Env) (p : PushCmd) : PushCmd :=
  match env "HELM_REPO_ACCESS_TOKEN" with
  | some v => if p.accessToken = "" then { p with accessToken := v } else p
  | none => p

def envStepApiKey (env : Env) (p : PushCmd) : PushCmd :=
  match env "HELM_REPO_API_KEY" with
  | some v => if p.apiKey = "" then { p with apiKey := v } else p
  | none => p

def envStepCAFile (env : Env) (p : PushCmd) : PushCmd :=
  match env "HELM_REPO_CA_FILE" with
  | some v => if p.caFile = "" then { p with caFile := v } else p
  | none => p

def envStepCertFile (env : Env) (p : PushCmd) : PushCmd :=
  match env "HELM_REPO_CERT_FILE" with
  | some v => if p.certFile = "" then { p with certFile := v } else p
  | none => p

def envStepKeyFile (env : Env) (p : PushCmd) : PushCmd :=
  match env "HELM_REPO_KEY_FILE" with
  | some v => if p.keyFile = "" then { p with keyFile := v } else p
  | none => p

def envStepInsecure (env : Env) (p : PushCmd) : PushCmd :=
  match env "HELM_REPO_INSECURE" with
  | some v => { p with insecureSkipVerify := goParseBoolOrFalse v }
  | none => p

def envStepSkipReindex (env : Env) (p : PushCmd) : PushCmd :=
  match env "HELM_REPO_SKIP_REINDEX" with
  | some v => { p with skipReindex := goParseBoolOrFalse v }
  | none => p

/-- Mirrors `(p *pushCmd) setFieldsFromEnv()` in `cmd/push/main.go`: the ten
environment lookups, in source order. -/
def setFieldsFromEnv (env : Env) (p : PushCmd) : PushCmd :=
  envStepSkipReindex env (envStepInsecure env (envStepKeyFile env
    (envStepCertFile env (envStepCAFile env (envStepApiKey env
      (envStepAccessToken env (envStepPassword env
        (envStepUsername env (envStepPath env p)))))))))

def repoStepUsername (r : Repo) (p : PushCmd) : PushCmd :=
  if p.username = "" then { p with username := r.username } else p

def repoStepPassword (r : Repo) (p : PushCmd) : PushCmd :=
  if p.password = "" then { p with password := r.password } else p

def repoStepCAFile (r : Repo) (p : PushCmd) : PushCmd :=
  if p.caFile = "" then { p with caFile := r.caFile } else p

def repoStepCertFile (r : Repo) (p : PushCmd) : PushCmd :=
  if p.certFile = "" then { p with certFile := r.certFile } else p

def repoStepKeyFile (r : Repo) (p : PushCmd) : PushCmd :=
  if p.keyFile = "" then { p with keyFile := r.keyFile } else p

/-- Mirrors lines 167-184 of `push`: when a stored repository entry was
resolved, its URL replaces the argument and its credential and TLS fields
seed any still-empty fields. -/
def applyRepoDefaults (p : PushCmd) : Option Repo → PushCmd
  | none => p
  | some r =>
    repoStepKeyFile r (repoStepCertFile r (repoStepCAFile r
      (repoStepPassword r (repoStepUsername r { p with repository := r.url }))))

/-- The value a string-typed field has after the env-fallback pass. -/
def resolveStrField (env : Env) (key : String) (cur : String) : String :=
  match env key with
  | some v => if cur = "" then v else cur
  | none => cur

/-- The value a bool-typed field has after the env-fallback pass. -/
def resolveBoolField (env : Env) (key : String) (cur : Bool) : Bool :=
  match env key with
  | some v => goParseBoolOrFalse v
  | none => cur

theorem envStepPath_eq (env : Env) (p : PushCmd) :
    envStepPath env p = { p with path := resolveStrField env "HELM_REPO_PATH" p.path } := by
  unfold envStepPath resolveStrField
  cases env "HELM_REPO_PATH" <;> simp <;> split <;> rfl

theorem envStepUsername_eq (env : Env) (p : PushCmd) :
    envStepUsername env p =
      { p with username := resolveStrField env "HELM_REPO_USERNAME" p.username } := by
  unfold envStepUsername resolveStrField
  cases env "HELM_REPO_USERNAME" <;> simp <;> split <;> rfl

theorem envStepPassword_eq (env : Env) (p : PushCmd) :
    envStepPassword env p =
      { p with password := resolveStrField env "HELM_REPO_PASSWORD" p.password } := by
  unfold envStepPassword resolveStrField
  cases env "HELM_REPO_PASSWORD" <;> simp <;> split <;> rfl

theorem envStepAccessToken_eq (env : Env) (p : PushCmd) :
    envStepAccessToken env p =
      { p with accessToken := resolveStrField env "HELM_REPO_ACCESS_TOKEN" p.accessToken } := by
  unfold envStepAccessToken resolveStrField
  cases env "HELM_REPO_ACCESS_TOKEN" <;> simp <;> split <;> rfl

theorem envStepApiKey_eq (env : Env) (p : PushCmd) :
    envStepApiKey env p =
      { p with apiKey := resolveStrField env "HELM_REPO_API_KEY" p.apiKey } := by
  unfold envStepApiKey resolveStrField
  cases env "HELM_REPO_API_KEY" <;> simp <;> split <;> rfl

theorem envStepCAFile_eq (env : Env) (p : PushCmd) :
    envStepCAFile env p =
      { p with caFile := resolveStrField env "HELM_REPO_CA_FILE" p.caFile } := by
  unfold envStepCAFile resolveStrField
  cases env "HELM_REPO_CA_FILE" <;> simp <;> split <;> rfl

theorem envStepCertFile_eq (env : Env) (p : PushCmd) :
    envStepCertFile env p =
      { p with certFile := resolveStrField env "HELM_REPO_CERT_FILE" p.certFile } := by
  unfold envStepCertFile resolveStrField
  cases env "HELM_REPO_CERT_FILE" <;> simp <;> split <;> rfl

theorem envStepKeyFile_eq (env : Env) (p : PushCmd) :
    envStepKeyFile env p =
      { p with keyFile := resolveStrField env "HELM_REPO_KEY_FILE" p.keyFile } := by
  unfold envStepKeyFile resolveStrField
  cases env "HELM_REPO_KEY_FILE" <;> simp <;> split <;> rfl

theorem envStepInsecure_eq (env : Env) (p : PushCmd) :
    envStepInsecure env p =
      { p with insecureSkipVerify :=
          resolveBoolField env "HELM_REPO_INSECURE" p.insecureSkipVerify } := by
  unfold envStepInsecure resolveBoolField
  cases env "HELM_REPO_INSECURE" <;> simp

theorem envStepSkipReindex_eq (env : Env) (p : PushCmd) :
    envStepSkipReindex env p =
      { p with skipReindex :=
          resolveBoolField env "HELM_REPO_SKIP_REINDEX" p.skipReindex } := by
  unfold envStepSkipReindex resolveBoolField
  cases env "HELM_REPO_SKIP_REINDEX" <;> simp

/-- The env-fallback pass acts on each field independently: every field's
outcome is the resolution of that field alone against its variable. -/
theorem setFieldsFromEnv_eq (env : Env) (p : PushCmd) :
    setFieldsFromEnv env p =
      { p with
        path := resolveStrField env "HELM_REPO_PATH" p.path
        username := resolveStrField env "HELM_REPO_USERNAME" p.username
        password := resolveStrField env "HELM_REPO_PASSWORD" p.password
        accessToken := resolveStrField env "HELM_REPO_ACCESS_TOKEN" p.accessToken
        apiKey := resolveStrField env "HELM_REPO_API_KEY" p.apiKey
        caFile := resolveStrField env "HELM_REPO_CA_FILE" p.caFile
        certFile := resolveStrField env "HELM_REPO_CERT_FILE" p.certFile
        keyFile := resolveStrField env "HELM_REPO_KEY_FILE" p.keyFile
        insecureSkipVerify := resolveBoolField env "HELM_REPO_INSECURE" p.insecureSkipVerify
        skipReindex := resolveBoolField env "HELM_REPO_SKIP_REINDEX" p.skipReindex } := by
  unfold setFieldsFromEnv
  rw [envStepPath_eq, envStepUsername_eq, envStepPassword_eq, envStepAccessToken_eq,
    envStepApiKey_eq, envStepCAFile_eq, envStepCertFile_eq, envStepKeyFile_eq,
    envStepInsecure_eq, envStepSkipReindex_eq]

/-- The stored-entry pass overwrites the repository URL and fills exactly the
still-empty credential and TLS fields from the entry. -/
theorem applyRepoDefaults_some_eq (p : PushCmd) (r : Repo) :
    applyRepoDefaults p (some r) =
      { p with
        repository := r.url
        username := if p.username = "" then r.username else p.username
        password := if p.password = "" then r.password else p.password
        caFile := if p.caFile = "" then r.caFile else p.caFile
        certFile := if p.certFile = "" then r.certFile else p.certFile
        keyFile := if p.keyFile = "" then r.keyFile else p.keyFile } := by
  unfold applyRepoDefaults repoStepUsername repoStepPassword repoStepCAFile
    repoStepCertFile repoStepKeyFile
  simp only []
  split <;> split <;> split <;> split <;> split <;> rfl

/-! ### The push flow -/

/-- Model of the anchored regular expression `^https?://` from line 134 of
`cmd/push/main.go`: `MatchString` succeeds exactly on strings with one of
these two prefixes. -/
def matchesURLPattern (s : String) : Bool :=
  List.isPrefixOf "http://".data s.data || List.isPrefixOf "https://".data s.data

/-- Modelled from the spec: `helmrepo.GetRepoByName` (package `pkg/repo`, whose
source is not part of the files under review) looks the argument up by name in
the local repository configuration store and fails with an unknown-repository
error exactly when no entry with that name exists. -/
def getRepoByName (store : List (String × Repo)) (name : String) :
    Except String Repo :=
  match store.lookup name with
  | some r => Except.ok r
  | none => Except.error ("UnknownRepository: " ++ name)

/-- The chart value handled by `push` (name and the version fields the
command may override). -/
structure Chart where
  name : String
  version : String
  appVersion : String
deriving Repr, DecidableEq

def Chart.setVersion (c : Chart) (v : String) : Chart := { c with version := v }

def Chart.setAppVersion (c : Chart) (v : String) : Chart := { c with appVersion := v }

/-- The effects `push` performs, in order. `upload` and `reindex` are the two
network calls; the others are local (store lookup, chart loading, value
overrides, client construction, scratch directory handling). -/
inductive Event where
  | lookupRepo (name : String)
  | getChart (name : String)
  | overrideValues
  | newClient
  | mkTempDir
  | createPackage
  | removeAll (dir : String)
  | upload
  | reindex
deriving Repr, DecidableEq

/-- Results of the external collaborators invoked by `push`, abstracting the
packages `pkg/repo`, `pkg/helm` and `pkg/artifactory` plus `ioutil.TempDir`.
An `Except.error e` / `some e` entry is the non-nil Go error the collaborator
would return. -/
structure PushOracle where
  repoStore : List (String × Repo)
  parseRequestURIResult : Option String
  chartResult : Except String Chart
  overrideValuesResult : Option String
  newClientResult : Option String
  tempDirResult : Except String String
  createPackageResult : Except String String
  uploadResp : Except String httpResponse
  reindexResp : Except String httpResponse

/-- Lines 209-231 of `push`: packaging into the scratch directory, the upload,
its response handling, the skip-reindex early return, the reindex and its
response handling. Only `p.skipReindex` is consulted here. -/
def pushNet (o : PushOracle) (p : PushCmd) : Option String × List Event :=
  match o.createPackageResult with
  | Except.error e => (some e, [Event.createPackage])
  | Except.ok _ =>
    match o.uploadResp with
    | Except.error e => (some e, [Event.createPackage, Event.upload])
    | Except.ok resp =>
      match handlePushResponse resp with
      | some e => (some e, [Event.createPackage, Event.upload])
      | none =>
        if p.skipReindex then (none, [Event.createPackage, Event.upload])
        else
          match o.reindexResp with
          | Except.error e => (some e, [Event.createPackage, Event.upload, Event.reindex])
          | Except.ok resp2 =>
            (handleReindexResponse resp2,
             [Event.createPackage, Event.upload, Event.reindex])

/-- Lines 203-207 of `push`: the scratch directory is created and, from that
point on, `defer os.RemoveAll(tmp)` runs on every return path. -/
def pushWithClient (o : PushOracle) (p : PushCmd) : Option String × List Event :=
  match o.tempDirResult with
  | Except.error e => (some e, [Event.mkTempDir])
  | Except.ok dir =>
    match pushNet o p with
    | (res, evs) => (res, Event.mkTempDir :: (evs ++ [Event.removeAll dir]))

/-- Lines 186-201 of `push`: client construction. -/
def pushAfterOverrides (o : PushOracle) (p : PushCmd) : Option String × List Event :=
  match o.newClientResult with
  | some e => (some e, [Event.newClient])
  | none =>
    match pushWithClient o p with
    | (res, evs) => (res, Event.newClient :: evs)

/-- Lines 145-231 of `push`, after repository resolution: chart loading, the
version/app-version/value overrides (the chart value they produce is consumed
by the collaborators the oracle abstracts), seeding from the stored entry,
then the client and network stages. -/
def pushWithRepo (o : PushOracle) (p : PushCmd) (repo : Option Repo) :
    Option String × List Event :=
  match o.chartResult with
  | Except.error e => (some e, [Event.getChart p.chartName])
  | Except.ok _ =>
    if p.overrides.isEmpty then
      match pushAfterOverrides o (applyRepoDefaults p repo) with
      | (res, evs) => (res, Event.getChart p.chartName :: evs)
    else
      match o.overrideValuesResult with
      | some e => (some e, [Event.getChart p.chartName, Event.overrideValues])
      | none =>
        match pushAfterOverrides o (applyRepoDefaults p repo) with
        | (res, evs) =>
          (res, Event.getChart p.chartName :: Event.overrideValues :: evs)

/-- Mirrors `(p *pushCmd) push()` in `cmd/push/main.go`: a URL-shaped
repository argument is only validated as a URL, any other argument goes
through the named-repository lookup; then the rest of the flow runs. -/
def push (o : PushOracle) (p : PushCmd) : Option String × List Event :=
  if matchesURLPattern p.repository then
    match o.parseRequestURIResult with
    | some e => (some e, [])
    | none => pushWithRepo o p none
  else
    match getRepoByName o.repoStore p.repository with
    | Except.error e => (some e, [Event.lookupRepo p.repository])
    | Except.ok r =>
      match pushWithRepo o p (some r) with
      | (res, evs) => (res, Event.lookupRepo p.repository :: evs)

/-! ### Helper lemmas -/

theorem getArtifactoryError_ne_none (b : String) (code : Int) :
    getArtifactoryError b code ≠ none := by
  unfold getArtifactoryError
  cases unmarshalErrorResponse b with
  | none => simp
  | some l => cases l <;> simp

theorem handlePushResponse_none_iff (resp : httpResponse) :
    handlePushResponse resp = none ↔ resp.statusCode = 201 := by
  unfold handlePushResponse
  rcases Decidable.em (resp.statusCode = 201) with h | h
  · simp [h]
  · simp [h, getArtifactoryError_ne_none]

theorem handleReindexResponse_none_iff (resp : httpResponse) :
    handleReindexResponse resp = none ↔ resp.statusCode = 200 := by
  unfold handleReindexResponse
  rcases Decidable.em (resp.statusCode = 200) with h | h
  · simp [h]
  · simp [h, getArtifactoryError_ne_none]

theorem applyRepoDefaults_skipReindex (p : PushCmd) (ro : Option Repo) :
    (applyRepoDefaults p ro).skipReindex = p.skipReindex := by
  cases ro with
  | none => rfl
  | some r => rw [applyRepoDefaults_some_eq]

theorem applyRepoDefaults_chartName (p : PushCmd) (ro : Option Repo) :
    (applyRepoDefaults p ro).chartName = p.chartName := by
  cases ro with
  | none => rfl
  | some r => rw [applyRepoDefaults_some_eq]

theorem pushNet_congr (o : PushOracle) (p q : PushCmd)
    (h : p.skipReindex = q.skipReindex) : pushNet o p = pushNet o q := by
  unfold pushNet
  rw [h]

theorem pushWithClient_congr (o : PushOracle) (p q : PushCmd)
    (h : p.skipReindex = q.skipReindex) : pushWithClient o p = pushWithClient o q := by
  unfold pushWithClient
  rw [pushNet_congr o p q h]

theorem pushAfterOverrides_congr (o : PushOracle) (p q : PushCmd)
    (h : p.skipReindex = q.skipReindex) :
    pushAfterOverrides o p = pushAfterOverrides o q := by
  unfold pushAfterOverrides
  rw [pushWithClient_congr o p q h]

theorem pushNet_upload_mem (o : PushOracle) (p : PushCmd) :
    Event.upload ∈ (pushNet o p).2 ↔ ∃ d, o.createPackageResult = Except.ok d := by
  unfold pushNet
  cases hc : o.createPackageResult with
  | error e => simp
  | ok d =>
    cases hu : o.uploadResp with
    | error e => simp
    | ok resp =>
      rcases Decidable.em (resp.statusCode = 201) with h201 | h201
      · have hh : handlePushResponse resp = none :=
          (handlePushResponse_none_iff resp).mpr h201
        cases hs : p.skipReindex with
        | true => simp [hh, hs]
        | false =>
          cases hr : o.reindexResp with
          | error e => simp [hh, hs]
          | ok resp2 => simp [hh, hs]
      · have hh : handlePushResponse resp ≠ none := fun h =>
          h201 ((handlePushResponse_none_iff resp).mp h)
        obtain ⟨e, he⟩ := Option.ne_none_iff_exists'.mp hh
        simp [he]

theorem pushNet_reindex_mem (o : PushOracle) (p : PushCmd) :
    Event.reindex ∈ (pushNet o p).2 ↔
      (∃ d, o.createPackageResult = Except.ok d) ∧
        (∃ r, o.uploadResp = Except.ok r ∧ r.statusCode = 201) ∧
          p.skipReindex = false := by
  unfold pushNet
  cases hc : o.createPackageResult with
  | error e => simp
  | ok d =>
    cases hu : o.uploadResp with
    | error e => simp
    | ok resp =>
      rcases Decidable.em (resp.statusCode = 201) with h201 | h201
      · have hh : handlePushResponse resp = none :=
          (handlePushResponse_none_iff resp).mpr h201
        cases hs : p.skipReindex with
        | true => simp [hh, hs, h201]
        | false =>
          cases hr : o.reindexResp with
          | error e => simp [hh, hs, h201]
          | ok resp2 => simp [hh, hs, h201]
      · have hh : handlePushResponse resp ≠ none := fun h =>
          h201 ((handlePushResponse_none_iff resp).mp h)
        obtain ⟨e, he⟩ := Option.ne_none_iff_exists'.mp hh
        simp [he, h201]

theorem pushNet_skip_success (o : PushOracle) (p : PushCmd)
    (hc : ∃ d, o.createPackageResult = Except.ok d)
    (hu : ∃ r, o.uploadResp = Except.ok r ∧ r.statusCode = 201)
    (hs : p.skipReindex = true) : (pushNet o p).1 = none := by
  obtain ⟨d, hd⟩ := hc
  obtain ⟨r, hr, h201⟩ := hu
  unfold pushNet
  simp [hd, hr, (handlePushResponse_none_iff r).mpr h201, hs]

theorem pushNet_events_sub (o : PushOracle) (p : PushCmd) :
    ∀ e ∈ (pushNet o p).2,
      e = Event.createPackage ∨ e = Event.upload ∨ e = Event.reindex := by
  unfold pushNet
  cases hc : o.createPackageResult with
  | error e => simp
  | ok d =>
    cases hu : o.uploadResp with
    | error e => simp
    | ok resp =>
      rcases Decidable.em (resp.statusCode = 201) with h201 | h201
      · have hh : handlePushResponse resp = none :=
          (handlePushResponse_none_iff resp).mpr h201
        cases hs : p.skipReindex with
        | true => simp [hh, hs]
        | false =>
          cases hr : o.reindexResp with
          | error e => simp [hh, hs]
          | ok resp2 => simp [hh, hs]
      · have hh : handlePushResponse resp ≠ none := fun h =>
          h201 ((handlePushResponse_none_iff resp).mp h)
        obtain ⟨e, he⟩ := Option.ne_none_iff_exists'.mp hh
        simp [he]

theorem pushNet_createPackage_error (o : PushOracle) (p : PushCmd) (e : String)
    (hc : o.createPackageResult = Except.error e) :
    pushNet o p = (some e, [Event.createPackage]) := by
  unfold pushNet
  rw [hc]

theorem pushWithClient_err (o : PushOracle) (p : PushCmd) (e : String)
    (h : o.tempDirResult = Except.error e) :
    pushWithClient o p = (some e, [Event.mkTempDir]) := by
  unfold pushWithClient
  rw [h]

theorem pushWithClient_ok (o : PushOracle) (p : PushCmd) (d : String)
    (h : o.tempDirResult = Except.ok d) :
    pushWithClient o p =
      ((pushNet o p).1,
       Event.mkTempDir :: ((pushNet o p).2 ++ [Event.removeAll d])) := by
  unfold pushWithClient
  rw [h]

theorem pushAfterOverrides_err (o : PushOracle) (p : PushCmd) (e : String)
    (h : o.newClientResult = some e) :
    pushAfterOverrides o p = (some e, [Event.newClient]) := by
  unfold pushAfterOverrides
  rw [h]

theorem pushAfterOverrides_ok (o : PushOracle) (p : PushCmd)
    (h : o.newClientResult = none) :
    pushAfterOverrides o p =
      ((pushWithClient o p).1, Event.newClient :: (pushWithClient o p).2) := by
  unfold pushAfterOverrides
  rw [h]

theorem pushWithRepo_chart_err (o : PushOracle) (p : PushCmd) (ro : Option Repo)
    (e : String) (h : o.chartResult = Except.error e) :
    pushWithRepo o p ro = (some e, [Event.getChart p.chartName]) := by
  unfold pushWithRepo
  rw [h]

theorem pushWithRepo_no_overrides (o : PushOracle) (p : PushCmd) (ro : Option Repo)
    (c : Chart) (hc : o.chartResult = Except.ok c) (hov : p.overrides = []) :
    pushWithRepo o p ro =
      ((pushAfterOverrides o (applyRepoDefaults p ro)).1,
       Event.getChart p.chartName :: (pushAfterOverrides o (applyRepoDefaults p ro)).2) := by
  unfold pushWithRepo
  rw [hc, hov]
  simp

theorem pushWithRepo_override_err (o : PushOracle) (p : PushCmd) (ro : Option Repo)
    (c : Chart) (e : String) (hc : o.chartResult = Except.ok c)
    (hov : p.overrides ≠ []) (he : o.overrideValuesResult = some e) :
    pushWithRepo o p ro = (some e, [Event.getChart p.chartName, Event.overrideValues]) := by
  unfold pushWithRepo
  rw [hc, he]
  simp [List.isEmpty_iff, hov]

theorem pushWithRepo_override_ok (o : PushOracle) (p : PushCmd) (ro : Option Repo)
    (c : Chart) (hc : o.chartResult = Except.ok c)
    (hov : p.overrides ≠ []) (he : o.overrideValuesResult = none) :
    pushWithRepo o p ro =
      ((pushAfterOverrides o (applyRepoDefaults p ro)).1,
       Event.getChart p.chartName :: Event.overrideValues ::
         (pushAfterOverrides o (applyRepoDefaults p ro)).2) := by
  unfold pushWithRepo
  rw [hc, he]
  simp [List.isEmpty_iff, hov]

theorem push_url_parse_err (o : PushOracle) (p : PushCmd) (e : String)
    (hm : matchesURLPattern p.repository = true)
    (hp : o.parseRequestURIResult = some e) :
    push o p = (some e, []) := by
  unfold push
  rw [hm, hp]
  simp

theorem push_url_ok (o : PushOracle) (p : PushCmd)
    (hm : matchesURLPattern p.repository = true)
    (hp : o.parseRequestURIResult = none) :
    push o p = pushWithRepo o p none := by
  unfold push
  rw [hm, hp]
  simp

theorem push_named_absent (o : PushOracle) (p : PushCmd)
    (hm : matchesURLPattern p.repository = false)
    (hl : o.repoStore.lookup p.repository = none) :
    push o p =
      (some ("UnknownRepository: " ++ p.repository), [Event.lookupRepo p.repository]) := by
  unfold push getRepoByName
  rw [hm, hl]
  simp

theorem push_named_found (o : PushOracle) (p : PushCmd) (r : Repo)
    (hm : matchesURLPattern p.repository = false)
    (hl : o.repoStore.lookup p.repository = some r) :
    push o p =
      ((pushWithRepo o p (some r)).1,
       Event.lookupRepo p.repository :: (pushWithRepo o p (some r)).2) := by
  unfold push getRepoByName
  rw [hm, hl]
  simp

theorem pushNet_createPackage_mem (o : PushOracle) (p : PushCmd) :
    Event.createPackage ∈ (pushNet o p).2 := by
  unfold pushNet
  cases hc : o.createPackageResult with
  | error e => simp
  | ok d =>
    cases hu : o.uploadResp with
    | error e => simp
    | ok resp =>
      cases hh : handlePushResponse resp with
      | some e => simp [hh]
      | none =>
        cases hs : p.skipReindex with
        | true => simp [hh, hs]
        | false =>
          cases hr : o.reindexResp with
          | error e => simp [hh, hs]
          | ok resp2 => simp [hh, hs]

theorem pushAfterOverrides_upload_mem (o : PushOracle) (q : PushCmd) :
    Event.upload ∈ (pushAfterOverrides o q).2 ↔
      o.newClientResult = none ∧ (∃ d, o.tempDirResult = Except.ok d) ∧
        (∃ f, o.createPackageResult = Except.ok f) := by
  cases hcl : o.newClientResult with
  | some e => rw [pushAfterOverrides_err o q e hcl]; simp
  | none =>
    rw [pushAfterOverrides_ok o q hcl]
    cases htd : o.tempDirResult with
    | error e => rw [pushWithClient_err o q e htd]; simp
    | ok d =>
      rw [pushWithClient_ok o q d htd]
      simp [pushNet_upload_mem]

theorem pushAfterOverrides_reindex_mem (o : PushOracle) (q : PushCmd) :
    Event.reindex ∈ (pushAfterOverrides o q).2 ↔
      o.newClientResult = none ∧ (∃ d, o.tempDirResult = Except.ok d) ∧
        (∃ f, o.createPackageResult = Except.ok f) ∧
          (∃ r, o.uploadResp = Except.ok r ∧ r.statusCode = 201) ∧
            q.skipReindex = false := by
  cases hcl : o.newClientResult with
  | some e => rw [pushAfterOverrides_err o q e hcl]; simp
  | none =>
    rw [pushAfterOverrides_ok o q hcl]
    cases htd : o.tempDirResult with
    | error e => rw [pushWithClient_err o q e htd]; simp
    | ok d =>
      rw [pushWithClient_ok o q d htd]
      simp [pushNet_reindex_mem, and_assoc]

theorem pushAfterOverrides_createPackage_mem (o : PushOracle) (q : PushCmd) :
    Event.createPackage ∈ (pushAfterOverrides o q).2 ↔
      o.newClientResult = none ∧ (∃ d, o.tempDirResult = Except.ok d) := by
  cases hcl : o.newClientResult with
  | some e => rw [pushAfterOverrides_err o q e hcl]; simp
  | none =>
    rw [pushAfterOverrides_ok o q hcl]
    cases htd : o.tempDirResult with
    | error e => rw [pushWithClient_err o q e htd]; simp
    | ok d =>
      rw [pushWithClient_ok o q d htd]
      simp [pushNet_createPackage_mem]

theorem pushAfterOverrides_removeAll (o : PushOracle) (q : PushCmd) (d : String)
    (htd : o.tempDirResult = Except.ok d)
    (hmk : Event.mkTempDir ∈ (pushAfterOverrides o q).2) :
    Event.removeAll d ∈ (pushAfterOverrides o q).2 := by
  cases hcl : o.newClientResult with
  | some e =>
    rw [pushAfterOverrides_err o q e hcl] at hmk
    simp at hmk
  | none =>
    rw [pushAfterOverrides_ok o q hcl]
    rw [pushWithClient_ok o q d htd]
    simp

theorem pushAfterOverrides_no_lookup (o : PushOracle) (q : PushCmd) (n : String) :
    Event.lookupRepo n ∉ (pushAfterOverrides o q).2 := by
  cases hcl : o.newClientResult with
  | some e => rw [pushAfterOverrides_err o q e hcl]; simp
  | none =>
    rw [pushAfterOverrides_ok o q hcl]
    cases htd : o.tempDirResult with
    | error e => rw [pushWithClient_err o q e htd]; simp
    | ok d =>
      rw [pushWithClient_ok o q d htd]
      simp
      intro h
      rcases pushNet_events_sub o q _ h with h1 | h1 | h1 <;> simp at h1

theorem pushAfterOverrides_skip_result (o : PushOracle) (q : PushCmd)
    (hcl : o.newClientResult = none) (htd : ∃ d, o.tempDirResult = Except.ok d)
    (hc : ∃ f, o.createPackageResult = Except.ok f)
    (hu : ∃ r, o.uploadResp = Except.ok r ∧ r.statusCode = 201)
    (hs : q.skipReindex = true) : (pushAfterOverrides o q).1 = none := by
  obtain ⟨d, hd⟩ := htd
  rw [pushAfterOverrides_ok o q hcl, pushWithClient_ok o q d hd]
  exact pushNet_skip_success o q hc hu hs

theorem pushAfterOverrides_createPackage_error (o : PushOracle) (q : PushCmd)
    (e : String) (hcl : o.newClientResult = none)
    (htd : ∃ d, o.tempDirResult = Except.ok d)
    (hc : o.createPackageResult = Except.error e) :
    (pushAfterOverrides o q).1 = some e := by
  obtain ⟨d, hd⟩ := htd
  rw [pushAfterOverrides_ok o q hcl, pushWithClient_ok o q d hd]
  rw [pushNet_createPackage_error o q e hc]

theorem pushWithRepo_upload_mem (o : PushOracle) (p : PushCmd) (ro : Option Repo) :
    Event.upload ∈ (pushWithRepo o p ro).2 ↔
      (∃ c, o.chartResult = Except.ok c) ∧
        (p.overrides = [] ∨ o.overrideValuesResult = none) ∧
          o.newClientResult = none ∧ (∃ d, o.tempDirResult = Except.ok d) ∧
            (∃ f, o.createPackageResult = Except.ok f) := by
  cases hch : o.chartResult with
  | error e => rw [pushWithRepo_chart_err o p ro e hch]; simp
  | ok c =>
    rcases Decidable.em (p.overrides = []) with hov | hov
    · rw [pushWithRepo_no_overrides o p ro c hch hov]
      simp [pushAfterOverrides_upload_mem, hov]
    · cases hove : o.overrideValuesResult with
      | some e => rw [pushWithRepo_override_err o p ro c e hch hov hove]; simp [hov]
      | none =>
        rw [pushWithRepo_override_ok o p ro c hch hov hove]
        simp [pushAfterOverrides_upload_mem, hov]

theorem pushWithRepo_reindex_mem (o : PushOracle) (p : PushCmd) (ro : Option Repo) :
    Event.reindex ∈ (pushWithRepo o p ro).2 ↔
      (∃ c, o.chartResult = Except.ok c) ∧
        (p.overrides = [] ∨ o.overrideValuesResult = none) ∧
          o.newClientResult = none ∧ (∃ d, o.tempDirResult = Except.ok d) ∧
            (∃ f, o.createPackageResult = Except.ok f) ∧
              (∃ r, o.uploadResp = Except.ok r ∧ r.statusCode = 201) ∧
                p.skipReindex = false := by
  cases hch : o.chartResult with
  | error e => rw [pushWithRepo_chart_err o p ro e hch]; simp
  | ok c =>
    rcases Decidable.em (p.overrides = []) with hov | hov
    · rw [pushWithRepo_no_overrides o p ro c hch hov]
      simp [pushAfterOverrides_reindex_mem, hov, applyRepoDefaults_skipReindex]
    · cases hove : o.overrideValuesResult with
      | some e => rw [pushWithRepo_override_err o p ro c e hch hov hove]; simp [hov]
      | none =>
        rw [pushWithRepo_override_ok o p ro c hch hov hove]
        simp [pushAfterOverrides_reindex_mem, hov, applyRepoDefaults_skipReindex]

theorem pushWithRepo_createPackage_mem (o : PushOracle) (p : PushCmd) (ro : Option Repo) :
    Event.createPackage ∈ (pushWithRepo o p ro).2 ↔
      (∃ c, o.chartResult = Except.ok c) ∧
        (p.overrides = [] ∨ o.overrideValuesResult = none) ∧
          o.newClientResult = none ∧ (∃ d, o.tempDirResult = Except.ok d) := by
  cases hch : o.chartResult with
  | error e => rw [pushWithRepo_chart_err o p ro e hch]; simp
  | ok c =>
    rcases Decidable.em (p.overrides = []) with hov | hov
    · rw [pushWithRepo_no_overrides o p ro c hch hov]
      simp [pushAfterOverrides_createPackage_mem, hov]
    · cases hove : o.overrideValuesResult with
      | some e => rw [pushWithRepo_override_err o p ro c e hch hov hove]; simp [hov]
      | none =>
        rw [pushWithRepo_override_ok o p ro c hch hov hove]
        simp [pushAfterOverrides_createPackage_mem, hov]

theorem pushWithRepo_no_lookup (o : PushOracle) (p : PushCmd) (ro : Option Repo)
    (n : String) : Event.lookupRepo n ∉ (pushWithRepo o p ro).2 := by
  cases hch : o.chartResult with
  | error e => rw [pushWithRepo_chart_err o p ro e hch]; simp
  | ok c =>
    rcases Decidable.em (p.overrides = []) with hov | hov
    · rw [pushWithRepo_no_overrides o p ro c hch hov]
      simp [pushAfterOverrides_no_lookup]
    · cases hove : o.overrideValuesResult with
      | some e => rw [pushWithRepo_override_err o p ro c e hch hov hove]; simp
      | none =>
        rw [pushWithRepo_override_ok o p ro c hch hov hove]
        simp [pushAfterOverrides_no_lookup]

theorem pushWithRepo_getChart_mem (o : PushOracle) (p : PushCmd) (ro : Option Repo) :
    Event.getChart p.chartName ∈ (pushWithRepo o p ro).2 := by
  cases hch : o.chartResult with
  | error e => rw [pushWithRepo_chart_err o p ro e hch]; simp
  | ok c =>
    rcases Decidable.em (p.overrides = []) with hov | hov
    · rw [pushWithRepo_no_overrides o p ro c hch hov]; simp
    · cases hove : o.overrideValuesResult with
      | some e => rw [pushWithRepo_override_err o p ro c e hch hov hove]; simp
      | none => rw [pushWithRepo_override_ok o p ro c hch hov hove]; simp

theorem pushWithRepo_removeAll (o : PushOracle) (p : PushCmd) (ro : Option Repo)
    (d : String) (htd : o.tempDirResult = Except.ok d)
    (hmk : Event.mkTempDir ∈ (pushWithRepo o p ro).2) :
    Event.removeAll d ∈ (pushWithRepo o p ro).2 := by
  cases hch : o.chartResult with
  | error e =>
    rw [pushWithRepo_chart_err o p ro e hch] at hmk
    simp at hmk
  | ok c =>
    rcases Decidable.em (p.overrides = []) with hov | hov
    · rw [pushWithRepo_no_overrides o p ro c hch hov] at hmk ⊢
      simp at hmk ⊢
      exact pushAfterOverrides_removeAll o _ d htd hmk
    · cases hove : o.overrideValuesResult with
      | some e =>
        rw [pushWithRepo_override_err o p ro c e hch hov hove] at hmk
        simp at hmk
      | none =>
        rw [pushWithRepo_override_ok o p ro c hch hov hove] at hmk ⊢
        simp at hmk ⊢
        exact pushAfterOverrides_removeAll o _ d htd hmk

theorem pushWithRepo_skip_result (o : PushOracle) (p : PushCmd) (ro : Option Repo)
    (hch : ∃ c, o.chartResult = Except.ok c)
    (hov : p.overrides = [] ∨ o.overrideValuesResult = none)
    (hcl : o.newClientResult = none)
    (htd : ∃ d, o.tempDirResult = Except.ok d)
    (hcp : ∃ f, o.createPackageResult = Except.ok f)
    (hu : ∃ r, o.uploadResp = Except.ok r ∧ r.statusCode = 201)
    (hs : p.skipReindex = true) : (pushWithRepo o p ro).1 = none := by
  obtain ⟨c, hc⟩ := hch
  have hs2 : (applyRepoDefaults p ro).skipReindex = true := by
    rw [applyRepoDefaults_skipReindex]; exact hs
  rcases Decidable.em (p.overrides = []) with h | h
  · rw [pushWithRepo_no_overrides o p ro c hc h]
    exact pushAfterOverrides_skip_result o _ hcl htd hcp hu hs2
  · rcases hov with hov | hov
    · exact absurd hov h
    · rw [pushWithRepo_override_ok o p ro c hc h hov]
      exact pushAfterOverrides_skip_result o _ hcl htd hcp hu hs2

theorem pushWithRepo_createPackage_error (o : PushOracle) (p : PushCmd)
    (ro : Option Repo) (e : String)
    (hch : ∃ c, o.chartResult = Except.ok c)
    (hov : p.overrides = [] ∨ o.overrideValuesResult = none)
    (hcl : o.newClientResult = none)
    (htd : ∃ d, o.tempDirResult = Except.ok d)
    (hcp : o.createPackageResult = Except.error e) :
    (pushWithRepo o p ro).1 = some e := by
  obtain ⟨c, hc⟩ := hch
  rcases Decidable.em (p.overrides = []) with h | h
  · rw [pushWithRepo_no_overrides o p ro c hc h]
    exact pushAfterOverrides_createPackage_error o _ e hcl htd hcp
  · rcases hov with hov | hov
    · exact absurd hov h
    · rw [pushWithRepo_override_ok o p ro c hc h hov]
      exact pushAfterOverrides_createPackage_error o _ e hcl htd hcp

theorem pushWithRepo_reindex_iff_upload (o : PushOracle) (p : PushCmd)
    (ro : Option Repo) :
    Event.reindex ∈ (pushWithRepo o p ro).2 ↔
      Event.upload ∈ (pushWithRepo o p ro).2 ∧
        (∃ r, o.uploadResp = Except.ok r ∧ r.statusCode = 201) ∧
          p.skipReindex = false := by
  rw [pushWithRepo_reindex_mem, pushWithRepo_upload_mem]
  tauto

theorem pushWithRepo_skip_spec (o : PushOracle) (p : PushCmd) (ro : Option Repo)
    (hu : Event.upload ∈ (pushWithRepo o p ro).2)
    (hok : ∃ r, o.uploadResp = Except.ok r ∧ r.statusCode = 201)
    (hs : p.skipReindex = true) :
    (pushWithRepo o p ro).1 = none ∧ Event.reindex ∉ (pushWithRepo o p ro).2 := by
  obtain ⟨hch, hov, hcl, htd, hcp⟩ := (pushWithRepo_upload_mem o p ro).mp hu
  refine ⟨pushWithRepo_skip_result o p ro hch hov hcl htd hcp hok hs, ?_⟩
  intro hr
  obtain ⟨_, _, _, _, _, _, hsf⟩ := (pushWithRepo_reindex_mem o p ro).mp hr
  rw [hs] at hsf
  exact Bool.noConfusion hsf

/-- C3: the reindex request is issued iff the skip-reindex field is false at
the point the upload has succeeded (transport ok and status 201); with
skip-reindex true the push returns success right after the upload
confirmation and no reindex call is made. -/
theorem claim_C3_reindex_iff_skip (o : PushOracle) (p : PushCmd) :
    (Event.reindex ∈ (push o p).2 ↔
      Event.upload ∈ (push o p).2 ∧
        (∃ r, o.uploadResp = Except.ok r ∧ r.statusCode = 201) ∧
          p.skipReindex = false) ∧
    (Event.upload ∈ (push o p).2 →
      (∃ r, o.uploadResp = Except.ok r ∧ r.statusCode = 201) →
        p.skipReindex = true →
          (push o p).1 = none ∧ Event.reindex ∉ (push o p).2) := by
  cases hm : matchesURLPattern p.repository with
  | true =>
    cases hp : o.parseRequestURIResult with
    | some e =>
      rw [push_url_parse_err o p e hm hp]
      constructor
      · simp
      · intro h; simp at h
    | none =>
      rw [push_url_ok o p hm hp]
      exact ⟨pushWithRepo_reindex_iff_upload o p none,
        fun hu hok hs => pushWithRepo_skip_spec o p none hu hok hs⟩
  | false =>
    cases hl : o.repoStore.lookup p.repository with
    | none =>
      rw [push_named_absent o p hm hl]
      constructor
      · simp
      · intro h; simp at h
    | some r =>
      rw [push_named_found o p r hm hl]
      constructor
      · simp only [List.mem_cons]
        constructor
        · rintro (h | h)
          · exact absurd h (by simp)
          · obtain ⟨hu, hok, hs⟩ := (pushWithRepo_reindex_iff_upload o p (some r)).mp h
            exact ⟨Or.inr hu, hok, hs⟩
        · rintro ⟨(h | h), hok, hs⟩
          · exact absurd h (by simp)
          · exact Or.inr ((pushWithRepo_reindex_iff_upload o p (some r)).mpr ⟨h, hok, hs⟩)
      · intro hu hok hs
        simp only [List.mem_cons] at hu
        rcases hu with h | h
        · exact absurd h (by simp)
        · obtain ⟨hres, hnr⟩ := pushWithRepo_skip_spec o p (some r) h hok hs
          refine ⟨hres, ?_⟩
          simp only [List.mem_cons]
          rintro (h2 | h2)
          · exact absurd h2 (by simp)
          · exact hnr h2

/-- C4: a repository argument matching the URL pattern never triggers a
named-repository lookup; a non-matching argument always goes through the
lookup, which fails with the unknown-repository error exactly when the store
has no entry of that name, and proceeds to chart loading when it does. -/
theorem claim_C4_repo_resolution (o : PushOracle) (p : PushCmd) :
    (matchesURLPattern p.repository = true →
      ∀ n, Event.lookupRepo n ∉ (push o p).2) ∧
    (matchesURLPattern p.repository = false →
      Event.lookupRepo p.repository ∈ (push o p).2 ∧
      (o.repoStore.lookup p.repository = none →
        (push o p).1 = some ("UnknownRepository: " ++ p.repository)) ∧
      (∀ r, o.repoStore.lookup p.repository = some r →
        Event.getChart p.chartName ∈ (push o p).2)) := by
  cases hm : matchesURLPattern p.repository with
  | true =>
    refine ⟨fun _ n => ?_, by simp⟩
    cases hp : o.parseRequestURIResult with
    | some e => rw [push_url_parse_err o p e hm hp]; simp
    | none =>
      rw [push_url_ok o p hm hp]
      exact pushWithRepo_no_lookup o p none n
  | false =>
    refine ⟨by simp, fun _ => ?_⟩
    cases hl : o.repoStore.lookup p.repository with
    | none =>
      rw [push_named_absent o p hm hl]
      refine ⟨by simp, fun _ => rfl, fun r hr => ?_⟩
      exact absurd hr (by simp)
    | some r =>
      rw [push_named_found o p r hm hl]
      refine ⟨by simp, fun h => ?_, fun r2 hr2 => ?_⟩
      · exact absurd h (by simp)
      · simp only [List.mem_cons]
        exact Or.inr (pushWithRepo_getChart_mem o p (some r))

theorem pushWithRepo_override_fail_spec (o : PushOracle) (p : PushCmd)
    (ro : Option Repo) (e : String) (hov : p.overrides ≠ [])
    (hove : o.overrideValuesResult = some e) :
    Event.upload ∉ (pushWithRepo o p ro).2 ∧
      Event.reindex ∉ (pushWithRepo o p ro).2 ∧
        (Event.overrideValues ∈ (pushWithRepo o p ro).2 →
          (pushWithRepo o p ro).1 = some e) := by
  cases hch : o.chartResult with
  | error e2 =>
    rw [pushWithRepo_chart_err o p ro e2 hch]
    simp
  | ok c =>
    rw [pushWithRepo_override_err o p ro c e hch hov hove]
    simp

theorem pushWithRepo_package_fail_spec (o : PushOracle) (p : PushCmd)
    (ro : Option Repo) (e : String)
    (hcp : o.createPackageResult = Except.error e) :
    Event.upload ∉ (pushWithRepo o p ro).2 ∧
      Event.reindex ∉ (pushWithRepo o p ro).2 ∧
        (Event.createPackage ∈ (pushWithRepo o p ro).2 →
          (pushWithRepo o p ro).1 = some e) := by
  refine ⟨?_, ?_, ?_⟩
  · intro hu
    obtain ⟨_, _, _, _, f, hf⟩ := (pushWithRepo_upload_mem o p ro).mp hu
    rw [hcp] at hf
    exact Except.noConfusion hf
  · intro hr
    obtain ⟨_, _, _, _, ⟨f, hf⟩, _, _⟩ := (pushWithRepo_reindex_mem o p ro).mp hr
    rw [hcp] at hf
    exact Except.noConfusion hf
  · intro hc
    obtain ⟨hch, hov2, hcl, htd⟩ := (pushWithRepo_createPackage_mem o p ro).mp hc
    exact pushWithRepo_createPackage_error o p ro e hch hov2 hcl htd hcp

/-- C7: a value-override failure or a packaging failure makes `push` return
that error with no network call: neither the upload nor the reindex request
is ever issued after such a failure. -/
theorem claim_C7_fail_before_network (o : PushOracle) (p : PushCmd) (e : String) :
    (p.overrides ≠ [] → o.overrideValuesResult = some e →
      Event.upload ∉ (push o p).2 ∧ Event.reindex ∉ (push o p).2 ∧
        (Event.overrideValues ∈ (push o p).2 → (push o p).1 = some e)) ∧
    (o.createPackageResult = Except.error e →
      Event.upload ∉ (push o p).2 ∧ Event.reindex ∉ (push o p).2 ∧
        (Event.createPackage ∈ (push o p).2 → (push o p).1 = some e)) := by
  constructor
  · intro hov hove
    cases hm : matchesURLPattern p.repository with
    | true =>
      cases hp : o.parseRequestURIResult with
      | some e2 => rw [push_url_parse_err o p e2 hm hp]; simp
      | none =>
        rw [push_url_ok o p hm hp]
        exact pushWithRepo_override_fail_spec o p none e hov hove
    | false =>
      cases hl : o.repoStore.lookup p.repository with
      | none => rw [push_named_absent o p hm hl]; simp
      | some r =>
        rw [push_named_found o p r hm hl]
        obtain ⟨h1, h2, h3⟩ := pushWithRepo_override_fail_spec o p (some r) e hov hove
        refine ⟨?_, ?_, ?_⟩
        · simp only [List.mem_cons]
          rintro (h | h)
          · exact absurd h (by simp)
          · exact h1 h
        · simp only [List.mem_cons]
          rintro (h | h)
          · exact absurd h (by simp)
          · exact h2 h
        · simp only [List.mem_cons]
          rintro (h | h)
          · exact absurd h (by simp)
          · exact h3 h
  · intro hcp
    cases hm : matchesURLPattern p.repository with
    | true =>
      cases hp : o.parseRequestURIResult with
      | some e2 => rw [push_url_parse_err o p e2 hm hp]; simp
      | none =>
        rw [push_url_ok o p hm hp]
        exact pushWithRepo_package_fail_spec o p none e hcp
    | false =>
      cases hl : o.repoStore.lookup p.repository with
      | none => rw [push_named_absent o p hm hl]; simp
      | some r =>
        rw [push_named_found o p r hm hl]
        obtain ⟨h1, h2, h3⟩ := pushWithRepo_package_fail_spec o p (some r) e hcp
        refine ⟨?_, ?_, ?_⟩
        · simp only [List.mem_cons]
          rintro (h | h)
          · exact absurd h (by simp)
          · exact h1 h
        · simp only [List.mem_cons]
          rintro (h | h)
          · exact absurd h (by simp)
          · exact h2 h
        · simp only [List.mem_cons]
          rintro (h | h)
          · exact absurd h (by simp)
          · exact h3 h

/-- C8: whenever the scratch temporary directory was created during `push`,
the flow also removes it, on the success path and on every failure path
reached after its creation. -/
theorem claim_C8_tempdir_removed (o : PushOracle) (p : PushCmd) (d : String)
    (htd : o.tempDirResult = Except.ok d)
    (hmk : Event.mkTempDir ∈ (push o p).2) :
    Event.removeAll d ∈ (push o p).2 := by
  cases hm : matchesURLPattern p.repository with
  | true =>
    cases hp : o.parseRequestURIResult with
    | some e =>
      rw [push_url_parse_err o p e hm hp] at hmk
      simp at hmk
    | none =>
      rw [push_url_ok o p hm hp] at hmk ⊢
      exact pushWithRepo_removeAll o p none d htd hmk
  | false =>
    cases hl : o.repoStore.lookup p.repository with
    | none =>
      rw [push_named_absent o p hm hl] at hmk
      simp at hmk
    | some r =>
      rw [push_named_found o p r hm hl] at hmk ⊢
      simp only [List.mem_cons] at hmk ⊢
      rcases hmk with h | h
      · exact absurd h (by simp)
      · exact Or.inr (pushWithRepo_removeAll o p (some r) d htd h)

/-- Split off the status-code prefix of the generic decoder message. -/
theorem genericMessage_split (c : String) (s : String) :
    c ++ ": could not properly parse response JSON: " ++ s =
      (c ++ ": ") ++ ("could not properly parse response JSON: " ++ s) := by
  have h1 : (": could not properly parse response JSON: " : String) =
      ": " ++ "could not properly parse response JSON: " := by decide
  rw [h1, ← String.append_assoc, String.append_assoc]

/-- `s` occurs contiguously inside `t`. -/
def SubstrOf (s t : String) : Prop := ∃ l r, t = l ++ s ++ r

/-- C2: the upload handler succeeds exactly on status 201 and the reindex
handler exactly on status 200; every other status makes the handler return the
decoded Artifactory error for the response body. -/
theorem claim_C2_handler_status (resp : httpResponse) :
    (handlePushResponse resp = none ↔ resp.statusCode = 201) ∧
    (resp.statusCode ≠ 201 →
      handlePushResponse resp = getArtifactoryError resp.body resp.statusCode) ∧
    (handleReindexResponse resp = none ↔ resp.statusCode = 200) ∧
    (resp.statusCode ≠ 200 →
      handleReindexResponse resp = getArtifactoryError resp.body resp.statusCode) := by
  refine ⟨handlePushResponse_none_iff resp, ?_,
    handleReindexResponse_none_iff resp, ?_⟩
  · intro h
    unfold handlePushResponse
    simp [h]
  · intro h
    unfold handleReindexResponse
    simp [h]

theorem claim_C2_witness :
    handlePushResponse ⟨404, "b"⟩ = getArtifactoryError "b" 404 ∧
    handleReindexResponse ⟨404, "b"⟩ = getArtifactoryError "b" 404 :=
  ⟨(claim_C2_handler_status ⟨404, "b"⟩).2.1 (by decide),
   (claim_C2_handler_status ⟨404, "b"⟩).2.2.2 (by decide)⟩

/-- C5: the documented example body with status 409 decodes to exactly
`409: conflict`. -/
theorem claim_C5_conflict_example :
    getArtifactoryError
      "\x7b\"errors\":[\x7b\"status\":409,\"message\":\"conflict\"\x7d]\x7d" 409 =
      some "409: conflict" := by decide

/-- C6: when the body does not decode to a non-empty `errors` list, the
decoder produces the generic message, which contains the decimal status code
and the raw body. -/
theorem claim_C6_generic_message (b : String) (code : Int)
    (h : unmarshalErrorResponse b = none ∨ unmarshalErrorResponse b = some []) :
    ∃ msg, getArtifactoryError b code = some msg ∧
      msg = toString code ++ ": could not properly parse response JSON: " ++ b ∧
      SubstrOf (toString code) msg ∧ SubstrOf b msg := by
  refine ⟨toString code ++ ": could not properly parse response JSON: " ++ b,
    ?_, rfl, ?_, ?_⟩
  · unfold getArtifactoryError
    rcases h with h | h <;> rw [h]
  · refine ⟨"", ": could not properly parse response JSON: " ++ b, ?_⟩
    rw [String.empty_append, String.append_assoc]
  · refine ⟨toString code ++ ": could not properly parse response JSON: ", "", ?_⟩
    rw [String.append_empty]

theorem claim_C6_witness :
    ∃ msg, getArtifactoryError "not json" 500 = some msg ∧
      msg = toString (500 : Int) ++ ": could not properly parse response JSON: " ++
        "not json" ∧
      SubstrOf (toString (500 : Int)) msg ∧ SubstrOf "not json" msg :=
  claim_C6_generic_message "not json" 500 (Or.inl (by decide))

/-- C9: on every body and status code the decoder produces a non-nil error
whose message starts with the decimal status code followed by a colon and a
space. -/
theorem claim_C9_always_error_with_code (b : String) (code : Int) :
    ∃ rest, getArtifactoryError b code = some ((toString code ++ ": ") ++ rest) := by
  unfold getArtifactoryError
  cases h : unmarshalErrorResponse b with
  | none =>
    exact ⟨"could not properly parse response JSON: " ++ b,
      by rw [genericMessage_split]⟩
  | some l =>
    cases l with
    | nil =>
      exact ⟨"could not properly parse response JSON: " ++ b,
        by rw [genericMessage_split]⟩
    | cons e rest => exact ⟨e.message, rfl⟩

/-- C10: when the body decodes to a non-empty `errors` list, the message is
the HTTP status code passed to the decoder followed by the first record's
message; the record's own `status` field plays no part. -/
theorem claim_C10_http_code_wins (b : String) (code : Int) (e : artifactoryError)
    (rest : List artifactoryError)
    (h : unmarshalErrorResponse b = some (e :: rest)) :
    getArtifactoryError b code = some (toString code ++ ": " ++ e.message) := by
  unfold getArtifactoryError
  rw [h]

theorem claim_C10_witness :
    getArtifactoryError
      "\x7b\"errors\":[\x7b\"status\":409,\"message\":\"m\"\x7d]\x7d" 500 =
      some (toString (500 : Int) ++ ": " ++ "m") :=
  claim_C10_http_code_wins _ 500 ⟨409, "m"⟩ [] (by decide)

/-! ### Layered field resolution (claim C1) -/

/-- The full resolution of the command's overridable fields in the order
`main.go` runs it: the env-fallback pass (`setFieldsFromEnv`, line 73)
followed by the stored-entry pass inside `push` (lines 167-184), for the case
where a stored repository entry was resolved. -/
def resolvedCmd (env : Env) (p : PushCmd) (r : Repo) : PushCmd :=
  applyRepoDefaults (setFieldsFromEnv env p) (some r)

def pCE : PushCmd :=
  { chartName := "c", chartVersion := "", appVersion := "",
    repository := "http://r", path := "", username := "", password := "",
    accessToken := "", apiKey := "", caFile := "", certFile := "",
    keyFile := "", insecureSkipVerify := true, skipReindex := false,
    overrides := [] }

def envCE : Env := fun k =>
  if k = "HELM_REPO_INSECURE" then some "false" else none

def rCE : Repo :=
  { url := "http://stored", username := "u", password := "pw",
    caFile := "ca", certFile := "cert", keyFile := "key" }

/-- C1 counterexample: the insecure flag is set (`true`) and the environment
variable is also set (`"false"`); the claim predicts the flag value `true`,
but the resolved value is the environment's `false`. -/
theorem claim_C1_counterexample :
    pCE.insecureSkipVerify = true ∧
    envCE "HELM_REPO_INSECURE" = some "false" ∧
    (resolvedCmd envCE pCE rCE).insecureSkipVerify = false := by decide

/-- C1 (amended): for the six string-valued fields the flag value wins when
non-empty, a non-empty environment value wins otherwise, and the stored
entry's value is used only when flag and environment leave the field empty
(`path` is never seeded from the stored entry); for the two boolean fields a
set environment variable always wins, with its value boolean-parsed
(unparseable values yielding `false`), and the flag value is used only when
the environment variable is absent. -/
theorem claim_C1_precedence (env : Env) (p : PushCmd) (r : Repo) :
    (p.username ≠ "" → (resolvedCmd env p r).username = p.username) ∧
    (∀ v, p.username = "" → env "HELM_REPO_USERNAME" = some v → v ≠ "" →
      (resolvedCmd env p r).username = v) ∧
    (p.username = "" →
      (env "HELM_REPO_USERNAME" = none ∨ env "HELM_REPO_USERNAME" = some "") →
      (resolvedCmd env p r).username = r.username) ∧
    (p.password ≠ "" → (resolvedCmd env p r).password = p.password) ∧
    (∀ v, p.password = "" → env "HELM_REPO_PASSWORD" = some v → v ≠ "" →
      (resolvedCmd env p r).password = v) ∧
    (p.password = "" →
      (env "HELM_REPO_PASSWORD" = none ∨ env "HELM_REPO_PASSWORD" = some "") →
      (resolvedCmd env p r).password = r.password) ∧
    (p.caFile ≠ "" → (resolvedCmd env p r).caFile = p.caFile) ∧
    (∀ v, p.caFile = "" → env "HELM_REPO_CA_FILE" = some v → v ≠ "" →
      (resolvedCmd env p r).caFile = v) ∧
    (p.caFile = "" →
      (env "HELM_REPO_CA_FILE" = none ∨ env "HELM_REPO_CA_FILE" = some "") →
      (resolvedCmd env p r).caFile = r.caFile) ∧
    (p.certFile ≠ "" → (resolvedCmd env p r).certFile = p.certFile) ∧
    (∀ v, p.certFile = "" → env "HELM_REPO_CERT_FILE" = some v → v ≠ "" →
      (resolvedCmd env p r).certFile = v) ∧
    (p.certFile = "" →
      (env "HELM_REPO_CERT_FILE" = none ∨ env "HELM_REPO_CERT_FILE" = some "") →
      (resolvedCmd env p r).certFile = r.certFile) ∧
    (p.keyFile ≠ "" → (resolvedCmd env p r).keyFile = p.keyFile) ∧
    (∀ v, p.keyFile = "" → env "HELM_REPO_KEY_FILE" = some v → v ≠ "" →
      (resolvedCmd env p r).keyFile = v) ∧
    (p.keyFile = "" →
      (env "HELM_REPO_KEY_FILE" = none ∨ env "HELM_REPO_KEY_FILE" = some "") →
      (resolvedCmd env p r).keyFile = r.keyFile) ∧
    (p.path ≠ "" → (resolvedCmd env p r).path = p.path) ∧
    (∀ v, p.path = "" → env "HELM_REPO_PATH" = some v →
      (resolvedCmd env p r).path = v) ∧
    (env "HELM_REPO_PATH" = none → (resolvedCmd env p r).path = p.path) ∧
    (∀ v, env "HELM_REPO_INSECURE" = some v →
      (resolvedCmd env p r).insecureSkipVerify = goParseBoolOrFalse v) ∧
    (env "HELM_REPO_INSECURE" = none →
      (resolvedCmd env p r).insecureSkipVerify = p.insecureSkipVerify) ∧
    (∀ v, env "HELM_REPO_SKIP_REINDEX" = some v →
      (resolvedCmd env p r).skipReindex = goParseBoolOrFalse v) ∧
    (env "HELM_REPO_SKIP_REINDEX" = none →
      (resolvedCmd env p r).skipReindex = p.skipReindex) := by
  unfold resolvedCmd
  rw [setFieldsFromEnv_eq, applyRepoDefaults_some_eq]
  refine ⟨?_, ?_, ?_, ?_, ?_, ?_, ?_, ?_, ?_, ?_, ?_, ?_, ?_, ?_, ?_, ?_, ?_,
    ?_, ?_, ?_, ?_, ?_⟩
  · intro h
    cases henv : env "HELM_REPO_USERNAME" <;> simp [resolveStrField, henv, h]
  · intro v h hv hne
    simp [resolveStrField, hv, h, hne]
  · intro h hd
    rcases hd with hd | hd <;> simp [resolveStrField, hd, h]
  · intro h
    cases henv : env "HELM_REPO_PASSWORD" <;> simp [resolveStrField, henv, h]
  · intro v h hv hne
    simp [resolveStrField, hv, h, hne]
  · intro h hd
    rcases hd with hd | hd <;> simp [resolveStrField, hd, h]
  · intro h
    cases henv : env "HELM_REPO_CA_FILE" <;> simp [resolveStrField, henv, h]
  · intro v h hv hne
    simp [resolveStrField, hv, h, hne]
  · intro h hd
    rcases hd with hd | hd <;> simp [resolveStrField, hd, h]
  · intro h
    cases henv : env "HELM_REPO_CERT_FILE" <;> simp [resolveStrField, henv, h]
  · intro v h hv hne
    simp [resolveStrField, hv, h, hne]
  · intro h hd
    rcases hd with hd | hd <;> simp [resolveStrField, hd, h]
  · intro h
    cases henv : env "HELM_REPO_KEY_FILE" <;> simp [resolveStrField, henv, h]
  · intro v h hv hne
    simp [resolveStrField, hv, h, hne]
  · intro h hd
    rcases hd with hd | hd <;> simp [resolveStrField, hd, h]
  · intro h
    cases henv : env "HELM_REPO_PATH" <;> simp [resolveStrField, henv, h]
  · intro v h hv
    simp [resolveStrField, hv, h]
  · intro henv
    simp [resolveStrField, henv]
  · intro v hv
    simp [resolveBoolField, hv]
  · intro henv
    simp [resolveBoolField, henv]
  · intro v hv
    simp [resolveBoolField, hv]
  · intro henv
    simp [resolveBoolField, henv]

def envW : Env := fun k =>
  if k = "HELM_REPO_USERNAME" then some "envuser" else none

def pEmpty : PushCmd :=
  { chartName := "c", chartVersion := "", appVersion := "",
    repository := "myrepo", path := "", username := "", password := "",
    accessToken := "", apiKey := "", caFile := "", certFile := "",
    keyFile := "", insecureSkipVerify := false, skipReindex := false,
    overrides := [] }

theorem claim_C1_witness :
    (resolvedCmd envW pEmpty rCE).username = "envuser" ∧
    (resolvedCmd envW pEmpty rCE).password = "pw" :=
  ⟨(claim_C1_precedence envW pEmpty rCE).2.1 "envuser" rfl (by decide) (by decide),
   (claim_C1_precedence envW pEmpty rCE).2.2.2.2.2.1 rfl (Or.inl (by decide))⟩

/-! ### Concrete executions used as witnesses -/

def chartW : Chart := { name := "c", version := "1.0", appVersion := "" }

def oW : PushOracle :=
  { repoStore := [("myrepo", rCE)],
    parseRequestURIResult := none,
    chartResult := Except.ok chartW,
    overrideValuesResult := none,
    newClientResult := none,
    tempDirResult := Except.ok "/tmp/helm-push-artifactory-1",
    createPackageResult := Except.ok "/tmp/helm-push-artifactory-1/c-1.0.tgz",
    uploadResp := Except.ok ⟨201, "Done"⟩,
    reindexResp := Except.ok ⟨200, "reindexed"⟩ }

def pURL : PushCmd := { pEmpty with repository := "http://example/repo", skipReindex := true }

def pNamed : PushCmd := { pEmpty with repository := "missing" }

def oE : PushOracle := { oW with createPackageResult := Except.error "boom" }

theorem claim_C3_witness :
    (push oW pURL).1 = none ∧ Event.reindex ∉ (push oW pURL).2 :=
  (claim_C3_reindex_iff_skip oW pURL).2 (by decide)
    ⟨⟨201, "Done"⟩, rfl, by decide⟩ (by decide)

theorem claim_C4_witness :
    Event.lookupRepo "missing" ∈ (push oW pNamed).2 ∧
      (push oW pNamed).1 = some ("UnknownRepository: " ++ "missing") :=
  ⟨((claim_C4_repo_resolution oW pNamed).2 (by decide)).1,
   ((claim_C4_repo_resolution oW pNamed).2 (by decide)).2.1 (by decide)⟩

theorem claim_C7_witness :
    (push oE pURL).1 = some "boom" ∧ Event.upload ∉ (push oE pURL).2 :=
  ⟨((claim_C7_fail_before_network oE pURL "boom").2 rfl).2.2 (by decide),
   ((claim_C7_fail_before_network oE pURL "boom").2 rfl).1⟩

theorem claim_C8_witness :
    Event.removeAll "/tmp/helm-push-artifactory-1" ∈ (push oW pURL).2 :=
  claim_C8_tempdir_removed oW pURL "/tmp/helm-push-artifactory-1" rfl (by decide)
